import Mathlib

/-!
Shallow embedding of the CargoDelivery core (apps/main/models.py and
apps/company/models.py): the geometry/pricing calculator, the Russian
plural day label, and the three post-save notifier receivers.

Python `Decimal` values are embedded as exact rationals; Python's
`round(x, n)` (banker's rounding, ROUND_HALF_EVEN) is `roundDec`.
Python `float` values are embedded as the exact rationals representable
as IEEE-754 binary64 numbers; `pyFloat` is correctly-rounded conversion
(valid on the normal range, which covers all values in this model).
Dates are embedded as day ordinals in ℤ; `date` subtraction `.days` is
integer subtraction, and Python's floored `%` with a positive modulus
agrees with Lean's `Int.emod`.
-/

namespace CargoDelivery

/-- Round a rational to the nearest integer, ties to even
(Python/IEEE ROUND_HALF_EVEN). -/
def halfEvenZ (q : ℚ) : ℤ :=
  let f : ℤ := ⌊q⌋
  if q - f < 1/2 then f
  else if (1:ℚ)/2 < q - f then f + 1
  else if f % 2 = 0 then f else f + 1

/-- Python `round(x, n)` on `Decimal`: round half-to-even at `n` decimal
places. -/
def roundDec (n : ℕ) (q : ℚ) : ℚ :=
  (halfEvenZ (q * 10 ^ n) : ℚ) / 10 ^ n

/-- The IEEE-754 binary64 value nearest to the rational `q`
(round-to-nearest, ties-to-even), for `q` in the normal range. This is
Python's `float(...)` conversion and also the rounding the hardware
applies to each arithmetic result. `Int.log 2 |q|` is the binade
exponent `e` with `2 ^ e ≤ |q| < 2 ^ (e + 1)`, so `|q| * 2 ^ k` is the
exact mantissa scaled into `[2 ^ 52, 2 ^ 53)`, which `halfEvenZ` rounds
to the 53-bit significand. -/
def pyFloat (q : ℚ) : ℚ :=
  if q = 0 then 0
  else
    let k : ℤ := 52 - Int.log 2 |q|
    let m : ℤ := halfEvenZ (|q| * (2:ℚ) ^ k)
    (if q < 0 then -1 else 1) * (m : ℚ) * (2:ℚ) ^ (-k)

/-- Python `round(x, 2)` on a `float` `x`: the exact value of `x` is
rounded half-to-even to 2 decimal places, and the result is converted
back to the nearest binary64 value (CPython's correctly-rounded
`double_round`). -/
def pyRoundFloat2 (x : ℚ) : ℚ :=
  pyFloat ((halfEvenZ (x * 100) : ℚ) / 100)

/-- Application status enum: `('WAIT', ...), ('CONF', ...), ('DECL', ...)`,
default WAIT. -/
inductive AppStatus where
  | WAIT
  | CONF
  | DECL
deriving DecidableEq, Repr

/-- Warehouse: belongs to a Company and a City (rows are embedded by
primary key). -/
structure Warehouse where
  company : ℕ
  city : ℕ
deriving DecidableEq, Repr

/-- Order: the fields the core logic reads. `user.email` is flattened to
`userEmail`; city and user foreign keys are primary keys; the three
cargo dimensions are `Decimal` centimeters. -/
structure Order where
  id : ℕ
  userEmail : String
  departure_city : ℕ
  arrival_city : ℕ
  departure_date : ℤ
  cargo_len : ℚ
  cargo_width : ℚ
  cargo_depth : ℚ
deriving DecidableEq, Repr

/-- Source `Order.cargo_volume`:
`round(self.cargo_len * self.cargo_width * self.cargo_depth, 2) / 1000000`. -/
def Order.cargo_volume (o : Order) : ℚ :=
  roundDec 2 (o.cargo_len * o.cargo_width * o.cargo_depth) / 1000000

/-- Sending: the fields the core logic reads. `orders` is the
many-to-many `orders` field (`self.orders.all()`). -/
structure Sending where
  id : ℕ
  company : ℕ
  departure_warehouse : Warehouse
  departure_date : ℤ
  arrival_warehouse : Warehouse
  arrival_date : ℤ
  total_volume : ℚ
  orders : List Order
  price_for_m3 : ℚ
deriving DecidableEq, Repr

/-- Source `Sending.free_volume`:
`summ = sum([order.cargo_volume for order in self.orders.all()])`;
`return self.total_volume - round(summ, 2)`. -/
def Sending.free_volume (s : Sending) : ℚ :=
  s.total_volume - roundDec 2 ((s.orders.map Order.cargo_volume).sum)

/-- Source `Sending.days`: number of days between departure and arrival with a
Russian plural form, exactly the source's three-way selection. -/
def Sending.days (s : Sending) : String :=
  let days_list : List String := ["день", "дня", "дней"]
  let num_days : ℤ := s.arrival_date - s.departure_date
  let p : ℕ :=
    if num_days % 10 = 1 ∧ num_days % 100 ≠ 11 then 0
    else if (2 ≤ num_days % 10 ∧ num_days % 10 ≤ 4) ∧
        (num_days % 100 < 10 ∨ 20 ≤ num_days % 100) then 1
    else 2
  toString num_days ++ " " ++ days_list.getD p ""

/-- Application row: `order` is a OneToOneField primary key, `sending` a
ForeignKey primary key. -/
structure Application where
  order : ℕ
  sending : ℕ
  status : AppStatus
deriving DecidableEq, Repr

/-- WorkerProfile (apps/company/models.py): one-to-one user (flattened to
the contact email) and a company foreign key. -/
structure WorkerProfile where
  userEmail : String
  company : ℕ
deriving DecidableEq, Repr

/-- The relational store visible to the notifiers. -/
structure DB where
  orders : List Order
  sendings : List Sending
  applications : List Application
  workers : List WorkerProfile
deriving Repr

/-- Store errors surfaced by the ORM layer: `ObjectDoesNotExist` from a
failed `.get`/one-to-one access, and the uniqueness conflict on the
one-to-one `Application.order` column. -/
inductive StoreError where
  | notFound
  | uniqueViolation
deriving DecidableEq, Repr

/-- The one-to-one reverse accessor `order.application`: `none` is the
`ObjectDoesNotExist` signal. -/
def findApplication (db : DB) (o : Order) : Option Application :=
  db.applications.find? (fun a => a.order == o.id)

/-- Lookup in the style of `Order.objects.get(pk=...)` through a foreign key. -/
def findOrderById (db : DB) (i : ℕ) : Option Order :=
  db.orders.find? (fun o => o.id == i)

/-- Lookup in the style of `Sending.objects.get(pk=...)` through a foreign key. -/
def findSendingById (db : DB) (i : ℕ) : Option Sending :=
  db.sendings.find? (fun s => s.id == i)

/-- Source `Application.price`:
`round(float(self.order.cargo_volume) * float(self.sending.price_for_m3), 2)`.
The two `Decimal` operands are converted to binary64, the product is
rounded to binary64 by the hardware, and Python's `round(·, 2)` is
applied. `none` models the `ObjectDoesNotExist` raise on a dangling
foreign key. -/
def Application.price (db : DB) (a : Application) : Option ℚ :=
  match findOrderById db a.order, findSendingById db a.sending with
  | some o, some s =>
      some (pyRoundFloat2 (pyFloat (pyFloat o.cargo_volume * pyFloat s.price_for_m3)))
  | _, _ => none

/-- If `2 ^ z ≤ r < 2 ^ (z + 1)` then `Int.log 2 r = z`: pins the binade
exponent of a concrete rational. -/
lemma int_log_two_eq {r : ℚ} {z : ℤ} (h1 : (2:ℚ) ^ z ≤ r) (h2 : r < (2:ℚ) ^ (z + 1)) :
    Int.log 2 r = z := by
  have hb : (1:ℚ) < 2 := by norm_num
  have hr : 0 < r := lt_of_lt_of_le (zpow_pos (by norm_num) z) h1
  have hcast : ((2:ℕ):ℚ) = (2:ℚ) := by norm_num
  have le1 : ((2:ℕ):ℚ) ^ Int.log 2 r ≤ r := Int.zpow_log_le_self (by norm_num) hr
  have lt1 : r < ((2:ℕ):ℚ) ^ (Int.log 2 r + 1) := Int.lt_zpow_succ_log_self (by norm_num) r
  rw [hcast] at le1 lt1
  have hzl : z < Int.log 2 r + 1 :=
    (zpow_lt_zpow_iff_right₀ hb).mp (lt_of_le_of_lt h1 lt1)
  have hlz : Int.log 2 r < z + 1 :=
    (zpow_lt_zpow_iff_right₀ hb).mp (lt_of_le_of_lt le1 h2)
  omega

/-- Unfolds `pyFloat` on a positive rational whose binade is known. -/
lemma pyFloat_pos_eq {q : ℚ} {e : ℤ} (h1 : (2:ℚ) ^ e ≤ q) (h2 : q < (2:ℚ) ^ (e + 1)) :
    pyFloat q = (halfEvenZ (q * (2:ℚ) ^ (52 - e)) : ℚ) * (2:ℚ) ^ (e - 52) := by
  have hq : 0 < q := lt_of_lt_of_le (zpow_pos (by norm_num) e) h1
  have habs : |q| = q := abs_of_pos hq
  have hlog : Int.log 2 q = e := int_log_two_eq h1 h2
  rw [pyFloat]
  simp only [if_neg (ne_of_gt hq), if_neg (not_lt_of_gt hq), habs, hlog, one_mul]
  ring_nf

/-- A dispatch made through `send_email_celery.delay` by
`new_sendings_email`: one recipient, carrying the order and the sending
as template context. -/
structure SendNotification where
  recipient : String
  orderId : ℕ
  sendingId : ℕ
deriving DecidableEq, Repr

/-- A dispatch made through `send_email_celery.delay` by
`application_status_email`: one recipient, the human-readable status
label, and the order/sending context. -/
structure StatusNotification where
  recipient : String
  statusLabel : String
  orderId : ℕ
  sendingId : ℕ
deriving DecidableEq, Repr

/-- A dispatch made through `send_many_email_celery.delay` by
`application_created_email`: the full recipient list of one broadcast
call, and the order/sending context. -/
structure BroadcastNotification where
  recipients : List String
  orderId : ℕ
  sendingId : ℕ
deriving DecidableEq, Repr

/-- Flag `need_send` as computed inside the loop of `new_sendings_email`:
starts `False`; the `ObjectDoesNotExist` branch sets it `True`; the
`else` branch sets it `True` when `order.application.status != 'CONF'`. -/
def need_send (db : DB) (o : Order) : Bool :=
  match findApplication db o with
  | none => true
  | some a => a.status != AppStatus.CONF

/-- The `post_save` receiver for `Sending` (`new_sendings_email`): when
`created`, filter orders on
`departure_city=instance.departure_warehouse.city`,
`arrival_city=instance.arrival_warehouse.city`,
`departure_date=instance.departure_date`, and dispatch one email per
order with `need_send`. Returns the list of dispatches enqueued. -/
def new_sendings_email (db : DB) (snd : Sending) (created : Bool) : List SendNotification :=
  if created then
    (db.orders.filter (fun o =>
        o.departure_city == snd.departure_warehouse.city &&
        o.arrival_city == snd.arrival_warehouse.city &&
        o.departure_date == snd.departure_date)).filterMap
      (fun o =>
        if need_send db o then
          some { recipient := o.userEmail, orderId := o.id, sendingId := snd.id }
        else none)
  else []

/-- The `post_save` receiver for `Application`
(`application_status_email`): maps the status to a label (`CONF` →
"Подтверждено", `DECL` → "Отклонено", otherwise the empty string), and
when the label is non-empty dispatches one email to
`instance.order.user.email` with the order and sending fetched by
`.get(application=instance)`. The `created` flag is received but never
read. A dangling foreign key raises `ObjectDoesNotExist`. -/
def application_status_email (db : DB) (app : Application) (created : Bool) :
    Except StoreError (List StatusNotification) :=
  let _ := created
  let status : String :=
    if app.status = AppStatus.CONF then "Подтверждено"
    else if app.status = AppStatus.DECL then "Отклонено"
    else ""
  if status ≠ "" then
    match findOrderById db app.order, findSendingById db app.sending with
    | some o, some s =>
        Except.ok [{ recipient := o.userEmail, statusLabel := status,
                     orderId := o.id, sendingId := s.id }]
    | _, _ => Except.error StoreError.notFound
  else Except.ok []

/-- The second `post_save` receiver for `Application`
(`application_created_email`): when `created`, collect the emails of
`WorkerProfile.objects.filter(company__sending__application=instance)` —
the workers whose company owns a sending carrying this application — and
make a single broadcast dispatch to that list, with the order and
sending fetched by `.get(application=instance)`. -/
def application_created_email (db : DB) (app : Application) (created : Bool) :
    Except StoreError (List BroadcastNotification) :=
  if created then
    let emails : List String :=
      (db.workers.filter (fun w =>
        db.sendings.any (fun s => s.id == app.sending && s.company == w.company))).map
        WorkerProfile.userEmail
    match findOrderById db app.order, findSendingById db app.sending with
    | some o, some s =>
        Except.ok [{ recipients := emails, orderId := o.id, sendingId := s.id }]
    | _, _ => Except.error StoreError.notFound
  else Except.ok []

/-- Modelled from the spec: the write path that creates an `Application`
row. The enforcement of the `OneToOneField(to=Order)` uniqueness
constraint lives in the ORM/database layer, which is not part of this
repository's sources; the spec describes it as a uniqueness conflict
surfaced to the second writer at commit time, never a silent overwrite. -/
def createApplication (db : DB) (app : Application) : Except StoreError DB :=
  if db.applications.any (fun a => a.order == app.order) then
    Except.error StoreError.uniqueViolation
  else
    Except.ok { db with applications := app :: db.applications }

/-- An order with the given cargo dimensions (centimeters) and neutral
values for the remaining fields. -/
def exOrder (l w d : ℚ) : Order :=
  { id := 1, userEmail := "customer@example.com", departure_city := 1, arrival_city := 2,
    departure_date := 0, cargo_len := l, cargo_width := w, cargo_depth := d }

/-- A sending with the given departure and arrival day ordinals. -/
def exSendingDates (dep arr : ℤ) : Sending :=
  { id := 2, company := 1, departure_warehouse := { company := 1, city := 1 },
    departure_date := dep, arrival_warehouse := { company := 1, city := 2 },
    arrival_date := arr, total_volume := 10, orders := [], price_for_m3 := 500 }

/-- A sending with the given total volume and attached orders. -/
def exSendingVol (tv : ℚ) (os : List Order) : Sending :=
  { id := 2, company := 1, departure_warehouse := { company := 1, city := 1 },
    departure_date := 0, arrival_warehouse := { company := 1, city := 2 },
    arrival_date := 1, total_volume := tv, orders := os, price_for_m3 := 500 }

/-- Label `Sending.days` written without the intermediate index `p`, with the
source's branch conditions verbatim. -/
lemma days_code (s : Sending) :
    s.days = toString (s.arrival_date - s.departure_date) ++ " " ++
      (if (s.arrival_date - s.departure_date) % 10 = 1 ∧
          (s.arrival_date - s.departure_date) % 100 ≠ 11 then "день"
       else if (2 ≤ (s.arrival_date - s.departure_date) % 10 ∧
            (s.arrival_date - s.departure_date) % 10 ≤ 4) ∧
          ((s.arrival_date - s.departure_date) % 100 < 10 ∨
            20 ≤ (s.arrival_date - s.departure_date) % 100) then "дня"
       else "дней") := by
  simp only [Sending.days]
  split
  · rfl
  · split <;> rfl

/-- Conversion `pyFloat` fixes `1/10` to the closest binary64 value,
`0.1000000000000000055511151231257827021181583404541015625`. -/
lemma pyFloat_tenth : pyFloat (1/10 : ℚ) = 3602879701896397 / 36028797018963968 := by
  rw [pyFloat_pos_eq (e := -4) (by norm_num) (by norm_num)]
  norm_num [halfEvenZ]

/-- The value 500 is exactly representable in binary64. -/
lemma pyFloat_500 : pyFloat (500 : ℚ) = 500 := by
  rw [pyFloat_pos_eq (e := 8) (by norm_num) (by norm_num)]
  norm_num [halfEvenZ]

/-- The binary64 product `float(0.1) * 500` rounds back to exactly 50. -/
lemma pyFloat_prod_50 : pyFloat ((3602879701896397 / 36028797018963968 : ℚ) * 500) = 50 := by
  rw [pyFloat_pos_eq (e := 5) (by norm_num) (by norm_num)]
  norm_num [halfEvenZ]

/-- Rounding 50.0 to two decimals returns 50.0 exactly. -/
lemma pyRoundFloat2_50 : pyRoundFloat2 (50 : ℚ) = 50 := by
  rw [pyRoundFloat2]
  norm_num [halfEvenZ]
  rw [pyFloat_pos_eq (e := 5) (by norm_num) (by norm_num)]
  norm_num [halfEvenZ]

/-- Cargo of 100 × 50 × 20 cm has volume exactly 0.1 m³. -/
lemma exOrder_volume_tenth : (exOrder 100 50 20).cargo_volume = 1/10 := by
  norm_num [exOrder, Order.cargo_volume, roundDec, halfEvenZ]

/-- Membership in a `filterMap` whose function is a guarded `some`. -/
lemma mem_filterMap_guard {α β : Type} (f : α → β) (c : α → Bool) (l : List α) (e : β) :
    e ∈ l.filterMap (fun a => if c a then some (f a) else none) ↔
      ∃ a, a ∈ l ∧ c a = true ∧ f a = e := by
  simp only [List.mem_filterMap]
  constructor
  · rintro ⟨a, ha, hfa⟩
    by_cases hc : c a
    · refine ⟨a, ha, hc, ?_⟩
      rw [if_pos hc] at hfa
      exact Option.some.inj hfa
    · rw [if_neg hc] at hfa
      exact absurd hfa (Option.some_ne_none _).symm
  · rintro ⟨a, ha, hc, hfa⟩
    exact ⟨a, ha, by rw [if_pos hc, hfa]⟩

/-- Counting outputs of a guarded `filterMap` against a matching count on
the inputs. -/
lemma countP_filterMap_guard_le {α β : Type} (f : α → β) (c : α → Bool) (q : β → Bool)
    (p : α → Bool) (l : List α) (h : ∀ a, q (f a) = true → p a = true) :
    (l.filterMap (fun a => if c a then some (f a) else none)).countP q ≤ l.countP p := by
  induction l with
  | nil => simp
  | cons a t ih =>
    rw [List.filterMap_cons, List.countP_cons]
    by_cases hc : c a
    · simp only [if_pos hc]
      rw [List.countP_cons]
      by_cases hq : q (f a)
      · rw [if_pos hq, if_pos (h a hq)]
        omega
      · rw [if_neg hq]
        omega
    · simp only [if_neg hc]
      omega

end CargoDelivery

namespace CargoDelivery

/-- C3: for every Order, `cargo_volume` is `round(len*width*depth, 2)`
divided by 1,000,000, the rounding being applied to the cm³ product
before the division — there are valid dimensions where rounding after
the division would give a different value — and dimensions
(100, 50, 20) cm yield exactly 0.1 m³. -/
theorem cargo_volume_spec :
    (∀ o : Order,
      o.cargo_volume = roundDec 2 (o.cargo_len * o.cargo_width * o.cargo_depth) / 1000000) ∧
    (∃ o : Order, 0 < o.cargo_len ∧ 0 < o.cargo_width ∧ 0 < o.cargo_depth ∧
      o.cargo_volume ≠ roundDec 2 (o.cargo_len * o.cargo_width * o.cargo_depth / 1000000)) ∧
    (exOrder 100 50 20).cargo_volume = 1/10 := by
  refine ⟨fun o => rfl, ⟨exOrder 1 1 1, ?_, ?_, ?_, ?_⟩, exOrder_volume_tenth⟩
  · norm_num [exOrder]
  · norm_num [exOrder]
  · norm_num [exOrder]
  · norm_num [exOrder, Order.cargo_volume, roundDec, halfEvenZ]

/-- C7: for every Sending, `free_volume` is `total_volume` minus the sum
of the attached orders' cargo volumes rounded to 2 decimals; the result
can go negative (over-booking is representable, not an error), and
`total_volume = 10` with attached volumes 0.1 and 0.2 gives 9.7. -/
theorem free_volume_spec :
    (∀ s : Sending,
      s.free_volume = s.total_volume - roundDec 2 ((s.orders.map Order.cargo_volume).sum)) ∧
    (∃ s : Sending, s.free_volume < 0) ∧
    (exSendingVol 10 [exOrder 100 50 20, exOrder 100 100 20]).free_volume = 97/10 := by
  refine ⟨fun s => rfl, ⟨exSendingVol 0 [exOrder 100 50 20], ?_⟩, ?_⟩
  · norm_num [exSendingVol, exOrder, Sending.free_volume, Order.cargo_volume, roundDec,
      halfEvenZ]
  · norm_num [exSendingVol, exOrder, Sending.free_volume, Order.cargo_volume, roundDec,
      halfEvenZ]

/-- C4: for every Sending, `days` formats `n = arrival_date -
departure_date` with the three-way Russian plural rule — "день" when
`n % 10 = 1` and `n % 100 ≠ 11`, "дня" when `n % 10 ∈ [2, 4]` and
`n % 100 ∉ [10, 20)`, otherwise "дней" — and n = 1, 11, 22, 25 give
"1 день", "11 дней", "22 дня", "25 дней". -/
theorem days_label_spec :
    (∀ s : Sending,
      s.days = toString (s.arrival_date - s.departure_date) ++ " " ++
        (if (s.arrival_date - s.departure_date) % 10 = 1 ∧
            (s.arrival_date - s.departure_date) % 100 ≠ 11 then "день"
         else if (2 ≤ (s.arrival_date - s.departure_date) % 10 ∧
              (s.arrival_date - s.departure_date) % 10 ≤ 4) ∧
            ¬(10 ≤ (s.arrival_date - s.departure_date) % 100 ∧
              (s.arrival_date - s.departure_date) % 100 < 20) then "дня"
         else "дней")) ∧
    (exSendingDates 0 1).days = "1 день" ∧
    (exSendingDates 0 11).days = "11 дней" ∧
    (exSendingDates 0 22).days = "22 дня" ∧
    (exSendingDates 0 25).days = "25 дней" := by
  refine ⟨fun s => ?_, by rfl, by rfl, by rfl, by rfl⟩
  rw [days_code]
  congr 1
  by_cases h1 : (s.arrival_date - s.departure_date) % 10 = 1 ∧
      (s.arrival_date - s.departure_date) % 100 ≠ 11
  · rw [if_pos h1, if_pos h1]
  · rw [if_neg h1, if_neg h1]
    by_cases h2 : (2 ≤ (s.arrival_date - s.departure_date) % 10 ∧
        (s.arrival_date - s.departure_date) % 10 ≤ 4) ∧
        ((s.arrival_date - s.departure_date) % 100 < 10 ∨
          20 ≤ (s.arrival_date - s.departure_date) % 100)
    · rw [if_pos h2, if_pos ⟨h2.1, by omega⟩]
    · rw [if_neg h2, if_neg (fun hk => h2 ⟨hk.1, by omega⟩)]

/-- C10: `days` is total — every pair of dates, including zero and
negative differences, produces one of the three labels — and on
negatives the selection uses the floored (non-negative) remainders:
n = 0 gives "0 дней", n = -1 gives "-1 дней" (−1 mod 10 = 9), n = -9
gives "-9 день" (−9 mod 10 = 1, −9 mod 100 = 91), and n = -38 gives
"-38 дня" (−38 mod 10 = 2, −38 mod 100 = 62). -/
theorem days_label_total_spec :
    (∀ s : Sending,
      s.days = toString (s.arrival_date - s.departure_date) ++ " " ++ "день" ∨
      s.days = toString (s.arrival_date - s.departure_date) ++ " " ++ "дня" ∨
      s.days = toString (s.arrival_date - s.departure_date) ++ " " ++ "дней") ∧
    ((-1 : ℤ) % 10 = 9) ∧ ((-9 : ℤ) % 10 = 1 ∧ (-9 : ℤ) % 100 = 91) ∧
    ((-38 : ℤ) % 10 = 2 ∧ (-38 : ℤ) % 100 = 62) ∧
    (exSendingDates 0 0).days = "0 дней" ∧
    (exSendingDates 1 0).days = "-1 дней" ∧
    (exSendingDates 9 0).days = "-9 день" ∧
    (exSendingDates 38 0).days = "-38 дня" := by
  refine ⟨fun s => ?_, by decide, by decide, by decide, by rfl, by rfl, by rfl, by rfl⟩
  rw [days_code]
  split
  · exact Or.inl rfl
  · split
    · exact Or.inr (Or.inl rfl)
    · exact Or.inr (Or.inr rfl)

/-- C2: for every matched order, `need_send` is true exactly when the
order has no Application (the not-found signal from the one-to-one
lookup, handled as a recoverable condition, not a failure) or its
Application's status is not CONF; it is false exactly when a CONF
application exists. -/
theorem need_send_spec (db : DB) (o : Order) :
    (need_send db o = true ↔
      findApplication db o = none ∨
        ∃ a, findApplication db o = some a ∧ a.status ≠ AppStatus.CONF) ∧
    (need_send db o = false ↔
      ∃ a, findApplication db o = some a ∧ a.status = AppStatus.CONF) := by
  unfold need_send
  cases h : findApplication db o with
  | none => simp [h]
  | some a => simp [h, bne_iff_ne]

end CargoDelivery

namespace CargoDelivery

/-- C1: the Sending receiver dispatches nothing on a save of an existing
Sending; on creation, the dispatched set is exactly one notification for
each stored order whose departure city, arrival city and departure date
equal (exactly) the sending warehouse cities and date and whose
`need_send` check passes; and, with distinct order ids, at most one
notification is dispatched per order. -/
theorem sending_match_notifier_spec (db : DB) (snd : Sending)
    (hids : (db.orders.map Order.id).Nodup) :
    new_sendings_email db snd false = [] ∧
    (∀ e : SendNotification,
      e ∈ new_sendings_email db snd true ↔
        ∃ o, o ∈ db.orders ∧
          o.departure_city = snd.departure_warehouse.city ∧
          o.arrival_city = snd.arrival_warehouse.city ∧
          o.departure_date = snd.departure_date ∧
          need_send db o = true ∧
          ({ recipient := o.userEmail, orderId := o.id,
             sendingId := snd.id } : SendNotification) = e) ∧
    (∀ i : ℕ, (new_sendings_email db snd true).countP (fun e => e.orderId == i) ≤ 1) := by
  refine ⟨rfl, fun e => ?_, fun i => ?_⟩
  · rw [new_sendings_email, if_pos rfl, mem_filterMap_guard]
    constructor
    · rintro ⟨o, ho, hns, heq⟩
      rw [List.mem_filter] at ho
      obtain ⟨hmem, hp⟩ := ho
      rw [Bool.and_eq_true, Bool.and_eq_true] at hp
      exact ⟨o, hmem, beq_iff_eq.mp hp.1.1, beq_iff_eq.mp hp.1.2,
        beq_iff_eq.mp hp.2, hns, heq⟩
    · rintro ⟨o, hmem, h1, h2, h3, hns, heq⟩
      refine ⟨o, List.mem_filter.mpr ⟨hmem, ?_⟩, hns, heq⟩
      rw [Bool.and_eq_true, Bool.and_eq_true]
      exact ⟨⟨beq_iff_eq.mpr h1, beq_iff_eq.mpr h2⟩, beq_iff_eq.mpr h3⟩
  · rw [new_sendings_email, if_pos rfl]
    have hle := countP_filterMap_guard_le
      (fun o : Order => ({ recipient := o.userEmail, orderId := o.id,
                           sendingId := snd.id } : SendNotification))
      (need_send db) (fun e => e.orderId == i) (fun o => o.id == i)
      (db.orders.filter (fun o =>
        o.departure_city == snd.departure_warehouse.city &&
        o.arrival_city == snd.arrival_warehouse.city &&
        o.departure_date == snd.departure_date))
      (fun _ ha => ha)
    refine le_trans hle (le_trans (List.Sublist.countP_le _ (List.filter_sublist _)) ?_)
    have h1 : (db.orders.map Order.id).count i ≤ 1 :=
      List.nodup_iff_count_le_one.mp hids i
    have h2 : (db.orders.map Order.id).count i = db.orders.countP (fun o => o.id == i) := by
      rw [List.count, List.countP_map]
      rfl
    omega

/-- Store and sending used to instantiate the Sending-Match Notifier
theorem at a concrete input. -/
def wDbC1 : DB :=
  { orders := [{ id := 1, userEmail := "a@example.com", departure_city := 1,
                 arrival_city := 2, departure_date := 5, cargo_len := 1,
                 cargo_width := 1, cargo_depth := 1 }],
    sendings := [], applications := [], workers := [] }

def wSndC1 : Sending :=
  { id := 7, company := 1, departure_warehouse := { company := 1, city := 1 },
    departure_date := 5, arrival_warehouse := { company := 1, city := 2 },
    arrival_date := 6, total_volume := 10, orders := [], price_for_m3 := 500 }

theorem sending_match_notifier_spec_witness :
    new_sendings_email wDbC1 wSndC1 false = [] ∧
    (new_sendings_email wDbC1 wSndC1 true).countP (fun e => e.orderId == 1) ≤ 1 :=
  ⟨(sending_match_notifier_spec wDbC1 wSndC1 (by simp [wDbC1])).1,
   (sending_match_notifier_spec wDbC1 wSndC1 (by simp [wDbC1])).2.2 1⟩

end CargoDelivery

namespace CargoDelivery

/-- C5: on every save of an Application (the `created` flag is ignored —
level-triggered, not edge-triggered), exactly one notification goes to
the order's owner when the status is CONF (label "Подтверждено") or DECL
(label "Отклонено"), and none when it is WAIT. -/
theorem application_status_notifier_spec (db : DB) (app : Application) (created : Bool)
    (o : Order) (s : Sending)
    (ho : findOrderById db app.order = some o)
    (hs : findSendingById db app.sending = some s) :
    application_status_email db app created =
      Except.ok (if app.status = AppStatus.CONF then
          [{ recipient := o.userEmail, statusLabel := "Подтверждено",
             orderId := o.id, sendingId := s.id }]
        else if app.status = AppStatus.DECL then
          [{ recipient := o.userEmail, statusLabel := "Отклонено",
             orderId := o.id, sendingId := s.id }]
        else []) ∧
    application_status_email db app created = application_status_email db app true := by
  refine ⟨?_, rfl⟩
  rcases happ : app.status with _ | _ | _ <;>
    simp [application_status_email, happ, ho, hs]

def wOrderC5 : Order :=
  { id := 1, userEmail := "owner@example.com", departure_city := 1, arrival_city := 2,
    departure_date := 0, cargo_len := 1, cargo_width := 1, cargo_depth := 1 }

def wAppC5 : Application := { order := 1, sending := 2, status := AppStatus.CONF }

def wDbC5 : DB :=
  { orders := [wOrderC5], sendings := [exSendingDates 0 1], applications := [wAppC5],
    workers := [] }

theorem application_status_notifier_spec_witness :
    application_status_email wDbC5 wAppC5 true =
      Except.ok [{ recipient := "owner@example.com", statusLabel := "Подтверждено",
                   orderId := 1, sendingId := 2 }] := by
  have h := (application_status_notifier_spec wDbC5 wAppC5 true wOrderC5
    (exSendingDates 0 1) rfl rfl).1
  simpa [wAppC5, wOrderC5, exSendingDates] using h

/-- The worker query of `application_created_email` collapses, under
distinct sending ids, to a company-equality filter against the sending
the application points at. -/
lemma any_sending_company (db : DB) (app : Application) (s : Sending)
    (hnodup : (db.sendings.map Sending.id).Nodup)
    (hs : findSendingById db app.sending = some s) (w : WorkerProfile) :
    (db.sendings.any (fun s2 => s2.id == app.sending && s2.company == w.company)) =
      (s.company == w.company) := by
  have hs' : db.sendings.find? (fun s2 => s2.id == app.sending) = some s := hs
  have hmem : s ∈ db.sendings := List.mem_of_find?_eq_some hs'
  have hps := @List.find?_some Sending (fun s2 => s2.id == app.sending) s db.sendings hs'
  have hideq : s.id = app.sending := beq_iff_eq.mp hps
  by_cases hw : s.company = w.company
  · have hany : (db.sendings.any
        (fun s2 => s2.id == app.sending && s2.company == w.company)) = true :=
      List.any_eq_true.mpr ⟨s, hmem, by
        rw [Bool.and_eq_true]
        exact ⟨beq_iff_eq.mpr hideq, beq_iff_eq.mpr hw⟩⟩
    rw [hany]
    exact (beq_iff_eq.mpr hw).symm
  · have hany : (db.sendings.any
        (fun s2 => s2.id == app.sending && s2.company == w.company)) = false := by
      rw [List.any_eq_false]
      intro s2 hs2
      rw [Bool.and_eq_true, not_and]
      intro h2id h2comp
      have hs2s : s2 = s :=
        List.inj_on_of_nodup_map hnodup hs2 hmem (by rw [beq_iff_eq.mp h2id, hideq])
      exact hw (hs2s ▸ beq_iff_eq.mp h2comp)
    rw [hany]
    exact (beq_eq_false_iff_ne.mpr (fun hk => hw hk)).symm

end CargoDelivery

namespace CargoDelivery

/-- C6: on creation of an Application (and only on creation), exactly one
broadcast dispatch is made, whose recipient list is the contact address
of every WorkerProfile of the company owning the Application's Sending
(Application → Sending → Company → WorkerProfiles), duplicates
preserved: its length is the number of such worker profiles. -/
theorem application_created_notifier_spec (db : DB) (app : Application) (o : Order)
    (s : Sending)
    (hnodup : (db.sendings.map Sending.id).Nodup)
    (ho : findOrderById db app.order = some o)
    (hs : findSendingById db app.sending = some s) :
    application_created_email db app false = Except.ok [] ∧
    application_created_email db app true =
      Except.ok [{ recipients := (db.workers.filter
                     (fun w => s.company == w.company)).map WorkerProfile.userEmail,
                   orderId := o.id, sendingId := s.id }] ∧
    (∀ msgs, application_created_email db app true = Except.ok msgs →
      msgs.length = 1 ∧ ∀ m ∈ msgs,
        m.recipients.length =
          (db.workers.filter (fun w => s.company == w.company)).length) := by
  have hfilter : db.workers.filter (fun w =>
      db.sendings.any (fun s2 => s2.id == app.sending && s2.company == w.company)) =
      db.workers.filter (fun w => s.company == w.company) :=
    List.filter_congr (fun w _ => any_sending_company db app s hnodup hs w)
  have hmain : application_created_email db app true =
      Except.ok [{ recipients := (db.workers.filter
                     (fun w => s.company == w.company)).map WorkerProfile.userEmail,
                   orderId := o.id, sendingId := s.id }] := by
    simp only [application_created_email, if_pos rfl, ho, hs, hfilter, if_true]
  refine ⟨rfl, hmain, fun msgs hmsgs => ?_⟩
  rw [hmain] at hmsgs
  cases Except.ok.inj hmsgs
  refine ⟨rfl, fun m hm => ?_⟩
  rw [List.mem_singleton] at hm
  rw [hm]
  exact List.length_map _ _

def wOrderC6 : Order :=
  { id := 1, userEmail := "c@example.com", departure_city := 1, arrival_city := 2,
    departure_date := 0, cargo_len := 1, cargo_width := 1, cargo_depth := 1 }

def wSendingC6 : Sending :=
  { id := 2, company := 4, departure_warehouse := { company := 4, city := 1 },
    departure_date := 0, arrival_warehouse := { company := 4, city := 2 },
    arrival_date := 1, total_volume := 10, orders := [], price_for_m3 := 500 }

def wAppC6 : Application := { order := 1, sending := 2, status := AppStatus.WAIT }

def wDbC6 : DB :=
  { orders := [wOrderC6], sendings := [wSendingC6], applications := [wAppC6],
    workers := [{ userEmail := "w1@example.com", company := 4 },
                { userEmail := "w1@example.com", company := 4 },
                { userEmail := "w2@example.com", company := 4 }] }

theorem application_created_notifier_spec_witness :
    application_created_email wDbC6 wAppC6 true =
      Except.ok [{ recipients := ["w1@example.com", "w1@example.com", "w2@example.com"],
                   orderId := 1, sendingId := 2 }] := by
  have h := (application_created_notifier_spec wDbC6 wAppC6 wOrderC6 wSendingC6
    (by simp [wDbC6]) rfl rfl).2.1
  simpa [wDbC6, wSendingC6, wOrderC6] using h

/-- Store rows used to instantiate the price theorem: an order of
dimensions 100 × 50 × 20 cm (volume 0.1 m³) and a sending priced at 500
per m³. -/
def priceApp : Application := { order := 1, sending := 2, status := AppStatus.WAIT }

def priceDb : DB :=
  { orders := [exOrder 100 50 20], sendings := [exSendingDates 0 1],
    applications := [priceApp], workers := [] }

/-- C8: for every Application whose order and sending rows resolve,
`price` is `round(float(cargo_volume) * float(price_for_m3), 2)` — both
operands converted to binary64 before the (also correctly-rounded)
multiplication — and for cargo_volume 0.1 with price_for_m3 500 the
price is exactly 50.0. -/
theorem application_price_spec (db : DB) (a : Application) (o : Order) (s : Sending)
    (ho : findOrderById db a.order = some o)
    (hs : findSendingById db a.sending = some s) :
    Application.price db a =
      some (pyRoundFloat2 (pyFloat (pyFloat o.cargo_volume * pyFloat s.price_for_m3))) ∧
    Application.price priceDb priceApp = some 50 := by
  constructor
  · simp only [Application.price, ho, hs]
  · have hfo : findOrderById priceDb priceApp.order = some (exOrder 100 50 20) := rfl
    have hfs : findSendingById priceDb priceApp.sending = some (exSendingDates 0 1) := rfl
    simp only [Application.price, hfo, hfs]
    have hp3 : (exSendingDates 0 1).price_for_m3 = 500 := rfl
    rw [exOrder_volume_tenth, hp3, pyFloat_tenth, pyFloat_500, pyFloat_prod_50,
      pyRoundFloat2_50]

theorem application_price_spec_witness : Application.price priceDb priceApp = some 50 :=
  (application_price_spec priceDb priceApp (exOrder 100 50 20) (exSendingDates 0 1)
    rfl rfl).2

/-- C9: with all stored applications on distinct orders, creating a new
Application fails with a uniqueness conflict exactly when some stored
application already occupies the same order — and the failure leaves the
store untouched rather than overwriting — while a successful creation
preserves the at-most-one-application-per-order invariant and keeps
every existing application. -/
theorem application_uniqueness_spec (db : DB) (app : Application)
    (h : (db.applications.map Application.order).Nodup) :
    (createApplication db app = Except.error StoreError.uniqueViolation ↔
      ∃ a ∈ db.applications, a.order = app.order) ∧
    (∀ db', createApplication db app = Except.ok db' →
      (db'.applications.map Application.order).Nodup ∧
      ∀ a ∈ db.applications, a ∈ db'.applications) := by
  by_cases hany : db.applications.any (fun a => a.order == app.order)
  · rw [List.any_eq_true] at hany
    obtain ⟨a0, ha0, hbeq⟩ := hany
    have heq : createApplication db app = Except.error StoreError.uniqueViolation := by
      rw [createApplication, if_pos (List.any_eq_true.mpr ⟨a0, ha0, hbeq⟩)]
    refine ⟨⟨fun _ => ⟨a0, ha0, beq_iff_eq.mp hbeq⟩, fun _ => heq⟩, fun db' hok => ?_⟩
    rw [heq] at hok
    exact absurd hok (by simp)
  · have heq : createApplication db app =
        Except.ok { db with applications := app :: db.applications } := by
      rw [createApplication, if_neg hany]
    have hnotmem : ∀ a ∈ db.applications, a.order ≠ app.order := by
      intro a ha hcontra
      exact hany (List.any_eq_true.mpr ⟨a, ha, beq_iff_eq.mpr hcontra⟩)
    constructor
    · rw [heq]
      constructor
      · intro hcontra
        exact absurd hcontra (by simp)
      · rintro ⟨a0, ha0, horder⟩
        exact absurd horder (hnotmem a0 ha0)
    · intro db' hok
      rw [heq] at hok
      cases Except.ok.inj hok
      constructor
      · rw [List.map_cons, List.nodup_cons]
        refine ⟨fun hcontra => ?_, h⟩
        rw [List.mem_map] at hcontra
        obtain ⟨a0, ha0, horder⟩ := hcontra
        exact hnotmem a0 ha0 horder
      · exact fun a ha => List.mem_cons_of_mem _ ha

def wAppC9 : Application := { order := 1, sending := 2, status := AppStatus.WAIT }

def wDbC9 : DB :=
  { orders := [], sendings := [], applications := [wAppC9], workers := [] }

theorem application_uniqueness_spec_witness :
    createApplication wDbC9 { order := 1, sending := 3, status := AppStatus.WAIT } =
      Except.error StoreError.uniqueViolation :=
  (application_uniqueness_spec wDbC9 { order := 1, sending := 3, status := AppStatus.WAIT }
    (by simp [wDbC9])).1.mpr ⟨wAppC9, by simp [wDbC9], rfl⟩

end CargoDelivery
